import Mathlib

/-!
Verification development for the Creator-Bot engagement-tracking core.

The definitions below are a shallow embedding of the repository's code:
* `src/database/schema.py` (the `Database` class: users / sessions /
  engagements tables and the query helpers over them),
* `src/events/message_handler.py` (the message and reaction pipelines),
* `src/commands/engagement.py` (the `/status` and `/change_link` commands).

SQLite rows are modelled as Lean structures, tables as lists of rows kept in
insertion (rowid) order, `AUTOINCREMENT` columns as explicit counters in the
database state, and `CURRENT_TIMESTAMP` columns as `Nat` timestamps supplied
by the caller of each mutating operation.
-/

namespace CreatorBot

/-- Row of the `users` table (schema.py, `create_tables`):
`user_id INTEGER PRIMARY KEY, username TEXT, total_points INTEGER DEFAULT 0`. -/
structure UserRow where
  user_id : Nat
  username : String
  total_points : Nat
deriving Repr, DecidableEq

/-- Row of the `sessions` table (schema.py, `create_tables`):
`session_id INTEGER PRIMARY KEY AUTOINCREMENT, user_id, link, message_id,
submitted_at TIMESTAMP DEFAULT CURRENT_TIMESTAMP, engaged BOOLEAN, channel_id`. -/
structure SessionRow where
  session_id : Nat
  user_id : Nat
  link : String
  message_id : Nat
  channel_id : Nat
  submitted_at : Nat
  engaged : Bool
deriving Repr, DecidableEq

/-- Row of the `engagements` table (schema.py, `create_tables`):
`engagement_id INTEGER PRIMARY KEY AUTOINCREMENT, engager_id,
target_session_id, engaged_at TIMESTAMP DEFAULT CURRENT_TIMESTAMP`. -/
structure EngagementRow where
  engagement_id : Nat
  engager_id : Nat
  target_session_id : Nat
  engaged_at : Nat
deriving Repr, DecidableEq

/-- The database state: the three tables in rowid order plus the
`AUTOINCREMENT` counters for session and engagement ids. -/
structure DB where
  users : List UserRow
  sessions : List SessionRow
  engagements : List EngagementRow
  nextSessionId : Nat
  nextEngagementId : Nat
deriving Repr, DecidableEq

/-- The empty database produced by `create_tables` on a fresh file
(SQLite `AUTOINCREMENT` starts at 1). -/
def initDB : DB :=
  { users := [], sessions := [], engagements := [],
    nextSessionId := 1, nextEngagementId := 1 }

/-- `Database.add_user` (schema.py lines 68-75):
`INSERT INTO users (user_id, username) VALUES (?, ?)
 ON CONFLICT(user_id) DO UPDATE SET username=excluded.username`.
A conflicting insert only rewrites `username`; `total_points` is kept. -/
def add_user (db : DB) (uid : Nat) (name : String) : DB :=
  if db.users.any (fun u => u.user_id == uid) then
    { db with users := db.users.map fun u =>
        if u.user_id == uid then { u with username := name } else u }
  else
    { db with users := db.users ++ [{ user_id := uid, username := name, total_points := 0 }] }

/-- `Database.add_session` (schema.py lines 77-84): inserts a new sessions
row and returns `cursor.lastrowid`. -/
def add_session (db : DB) (uid : Nat) (link : String) (mid cid t : Nat) : DB × Nat :=
  ({ db with
      sessions := db.sessions ++
        [{ session_id := db.nextSessionId, user_id := uid, link := link,
           message_id := mid, channel_id := cid, submitted_at := t, engaged := false }],
      nextSessionId := db.nextSessionId + 1 },
   db.nextSessionId)

/-- Accumulator step for `ORDER BY submitted_at DESC LIMIT 1`: keep the row
with the strictly larger timestamp, the earlier row on ties. -/
def laterOf (acc : Option SessionRow) (r : SessionRow) : Option SessionRow :=
  match acc with
  | none => some r
  | some b => if b.submitted_at < r.submitted_at then some r else some b

/-- `Database.get_active_session` (schema.py lines 85-104):
`SELECT ... FROM sessions WHERE user_id = ? ORDER BY submitted_at DESC
 LIMIT 1`, returning the row or `None`. -/
def get_active_session (db : DB) (uid : Nat) : Option SessionRow :=
  (db.sessions.filter fun r => r.user_id == uid).foldl laterOf none

/-- Number of engagements rows matching the pair, i.e. the value of
`SELECT COUNT(*) FROM engagements WHERE engager_id = ? AND target_session_id = ?`
used by `Database.has_engaged` (schema.py lines 119-126). -/
def engagementCount (db : DB) (engager sid : Nat) : Nat :=
  db.engagements.countP fun ed => ed.engager_id == engager && ed.target_session_id == sid

/-- `Database.has_engaged` (schema.py lines 119-126): `COUNT(*) > 0`. -/
def has_engaged (db : DB) (engager sid : Nat) : Bool :=
  engagementCount db engager sid != 0

/-- `Database.add_engagement` (schema.py lines 128-138): returns `False`
without inserting when `has_engaged` holds, otherwise inserts the edge and
returns `True`. -/
def add_engagement (db : DB) (engager sid t : Nat) : DB × Bool :=
  if has_engaged db engager sid then (db, false)
  else
    ({ db with
        engagements := db.engagements ++
          [{ engagement_id := db.nextEngagementId, engager_id := engager,
             target_session_id := sid, engaged_at := t }],
        nextEngagementId := db.nextEngagementId + 1 },
     true)

/-- `Database.add_point` (schema.py lines 140-147):
`UPDATE users SET total_points = total_points + 1 WHERE user_id = ?`. -/
def add_point (db : DB) (uid : Nat) : DB :=
  { db with users := db.users.map fun u =>
      if u.user_id == uid then { u with total_points := u.total_points + 1 } else u }

/-- Points of a user as read back from the `users` table (0 when the user
has no row, matching an empty `SELECT total_points` result). -/
def totalPoints (db : DB) (uid : Nat) : Nat :=
  match db.users.find? fun u => u.user_id == uid with
  | some u => u.total_points
  | none => 0

/-- `Database.get_leaderboard` (schema.py lines 149-157):
`SELECT user_id, username, total_points FROM users ORDER BY total_points
 DESC LIMIT ?`. -/
def get_leaderboard (db : DB) (limit : Nat) : List (Nat × String × Nat) :=
  ((db.users.insertionSort fun a b => b.total_points ≤ a.total_points).map
      fun u => (u.user_id, u.username, u.total_points)).take limit

/-- User ids appearing in `SELECT user_id, MAX(session_id) FROM sessions
GROUP BY user_id` (schema.py lines 163-169 and 256-266); SQLite returns the
groups in ascending key order, modelled by sort-after-dedup. -/
def latestUserIds (db : DB) : List Nat :=
  ((db.sessions.map fun r => r.user_id).dedup).insertionSort (· ≤ ·)

/-- `MAX(session_id)` over one user's sessions rows (0 on an empty group;
only consulted for users that have at least one row). -/
def latestSessionIdOf (db : DB) (uid : Nat) : Nat :=
  ((db.sessions.filter fun r => r.user_id == uid).map fun r => r.session_id).foldl Nat.max 0

/-- `Database.get_latest_sessions_map` (schema.py lines 256-266): mapping of
user_id to latest (maximum) session_id. -/
def get_latest_sessions_map (db : DB) : List (Nat × Nat) :=
  (latestUserIds db).map fun uid => (uid, latestSessionIdOf db uid)

/-- `Database.get_engagers_for_session` (schema.py lines 268-279):
`SELECT engager_id FROM engagements WHERE target_session_id = ?
 ORDER BY engaged_at ASC`. -/
def get_engagers_for_session (db : DB) (sid : Nat) : List Nat :=
  ((db.engagements.filter fun ed => ed.target_session_id == sid).insertionSort
      fun a b => a.engaged_at ≤ b.engaged_at).map fun ed => ed.engager_id

/-- Username lookup used by `get_non_engaged_users` (schema.py lines 188-192):
the `users` row's name, or the stringified id when no row exists. -/
def usernameOf (db : DB) (uid : Nat) : String :=
  match db.users.find? fun u => u.user_id == uid with
  | some u => u.username
  | none => toString uid

/-- Inner loop of `Database.get_non_engaged_users` (schema.py lines 171-186):
user `uid` is missing an engagement when some other user with a session has a
latest session `uid` has not engaged with. -/
def missingSomeEngagement (db : DB) (ids : List Nat) (uid : Nat) : Bool :=
  ids.any fun v => v != uid && !(has_engaged db uid (latestSessionIdOf db v))

/-- `Database.get_non_engaged_users` (schema.py lines 159-195). -/
def get_non_engaged_users (db : DB) : List (Nat × String) :=
  let ids := latestUserIds db
  (ids.filter (missingSomeEngagement db ids)).map fun uid => (uid, usernameOf db uid)

/-- `Database.reset_all_sessions` (schema.py lines 197-201):
`DELETE FROM sessions; DELETE FROM engagements` (the `users` table is not
touched). -/
def reset_all_sessions (db : DB) : DB :=
  { db with sessions := [], engagements := [] }

/-- The `UPDATE sessions SET link = ? WHERE session_id = ?` statement issued
by `change_link` (commands/engagement.py lines 154-163). -/
def updateSessionLink (db : DB) (sid : Nat) (newLink : String) : DB :=
  { db with sessions := db.sessions.map fun r =>
      if r.session_id == sid then { r with link := newLink } else r }

/-- The completion-marker emoji `MessageHandler.checkmark_emoji`
(events/message_handler.py line 12). -/
def checkmark_emoji : String := "✅"

/-- Raw reaction event payload (`discord.RawReactionActionEvent` fields read
by `on_raw_reaction_add`): reacting user, channel, message and emoji. -/
structure ReactionEvent where
  user_id : Nat
  channel_id : Nat
  message_id : Nat
  emoji : String
deriving Repr, DecidableEq

/-- Platform-side context of `on_raw_reaction_add`: the bot's own user id,
the configured allowed-channel set (`None` means all channels allowed), the
guild member list scanned to locate the content owner, and flags standing
for the external lookups (`get_channel` success, `fetch_message` success and
the fetched message carrying embeds). -/
structure ReactionCtx where
  botUserId : Nat
  allowed : Option (List Nat)
  members : List Nat
  channelFound : Bool
  fetchOk : Bool
  hasEmbeds : Bool
deriving Repr, DecidableEq

/-- Owner-session lookup inside `on_raw_reaction_add` (events/message_handler.py
lines 139-146): iterate the guild members, and take the first whose active
session's `message_id` matches the reacted message. -/
def findOwnerSession (db : DB) (members : List Nat) (mid : Nat) : Option SessionRow :=
  members.findSome? fun uid =>
    match get_active_session db uid with
    | some s => if s.message_id == mid then some s else none
    | none => none

/-- Database effect of `MessageHandler.on_raw_reaction_add`
(events/message_handler.py lines 110-203), in source order: ignore the bot's
own reactions; ignore disallowed channels; ignore non-checkmark emojis;
ignore events whose channel or message cannot be resolved; resolve the
content owner's session via the member scan (only when the message has
embeds); reject self-reactions; drop sessions with a falsy `session_id`;
return silently when `has_engaged` already holds; otherwise
`add_engagement` and, when it reports a new edge, `add_point` for the
engager. Reaction removal, embed edits and log messages are platform
side effects with no database footprint and are not modelled. -/
def on_raw_reaction_add (ctx : ReactionCtx) (db : DB) (ev : ReactionEvent) (t : Nat) : DB :=
  if ev.user_id == ctx.botUserId then db
  else if (match ctx.allowed with
           | some l => !(l.contains ev.channel_id)
           | none => false) then db
  else if ev.emoji != checkmark_emoji then db
  else if !ctx.channelFound then db
  else if !ctx.fetchOk then db
  else
    match (if ctx.hasEmbeds then findOwnerSession db ctx.members ev.message_id else none) with
    | none => db
    | some s =>
      if ev.user_id == s.user_id then db
      else if s.session_id == 0 then db
      else if has_engaged db ev.user_id s.session_id then db
      else
        let p := add_engagement db ev.user_id s.session_id t
        if p.2 then add_point p.1 ev.user_id else p.1

/-- Engagement-recording step of the reaction pipeline
(events/message_handler.py lines 187-190): `add_engagement` followed, when a
new edge was inserted, by `add_point` for the engager. -/
def recordEngagement (db : DB) (engager sid t : Nat) : DB × Bool :=
  let p := add_engagement db engager sid t
  if p.2 then (add_point p.1 engager, true) else (p.1, false)

/-- Message event consumed by `on_message`: author, channel, display name,
the `https?://\S+` matches found in the content (the regex itself is a text
operation, modelled as its result list), and the id of the formatted message
the bot posts. -/
structure MessageEvent where
  author_id : Nat
  author_is_bot : Bool
  channel_id : Nat
  display_name : String
  urls : List String
  formatted_message_id : Nat
deriving Repr, DecidableEq

/-- Database effect of `MessageHandler.on_message` (events/message_handler.py
lines 20-106): ignore bot authors and disallowed channels; with no URL in the
content, or when the author already has an active session, make no database
write; otherwise `add_user` then `add_session` with the first URL. -/
def on_message (db : DB) (allowed : Option (List Nat)) (ev : MessageEvent) (t : Nat) : DB :=
  if ev.author_is_bot then db
  else if (match allowed with
           | some l => !(l.contains ev.channel_id)
           | none => false) then db
  else
    match ev.urls with
    | [] => db
    | link :: _ =>
      match get_active_session db ev.author_id with
      | some _ => db
      | none =>
        (add_session (add_user db ev.author_id ev.display_name)
          ev.author_id link ev.formatted_message_id ev.channel_id t).1

/-- Result of the `/change_link` command as far as the database is concerned
(commands/engagement.py lines 100-176). `success` carries the previous link
(`session["link"]`, reported in the change-notification log embed). -/
inductive EditResult where
  | success (oldLink : String)
  | invalidLink
  | noActiveSubmission
  | channelNotFound
  | messageNotFound
deriving Repr, DecidableEq

/-- Decidable prefix test on character lists (first argument is the
candidate leading segment). -/
def charsBeginWith : List Char → List Char → Bool
  | [], _ => true
  | _ :: _, [] => false
  | p :: ps, c :: cs => p == c && charsBeginWith ps cs

/-- Python's whitespace test used by `\s` / `\S` in `re` patterns over `str`
(CPython `Py_UNICODE_ISSPACE`): the ASCII whitespace controls U+0009-U+000D,
the file/group/record/unit separators U+001C-U+001F, the space U+0020, NEL
U+0085, NBSP U+00A0, Ogham space U+1680, the typographic spaces
U+2000-U+200A, the line and paragraph separators U+2028/U+2029, narrow NBSP
U+202F, medium mathematical space U+205F and ideographic space U+3000. -/
def pyIsSpace (c : Char) : Bool :=
  let n := c.toNat
  (9 ≤ n && n ≤ 13) || (28 ≤ n && n ≤ 31) || n == 32 || n == 133 || n == 160 ||
    n == 5760 || (8192 ≤ n && n ≤ 8202) || n == 8232 || n == 8233 || n == 8239 ||
    n == 8287 || n == 12288

/-- Full match of a character sequence against `https?://\S+`: the sequence
is `http://` or `https://` followed by at least one character, and every
character is non-whitespace in Python's sense (the prefix characters are
non-whitespace anyway, so the check is over the whole sequence). -/
def matchesLinkPattern (cs : List Char) : Bool :=
  (cs.all fun c => !pyIsSpace c) &&
    ((charsBeginWith "http://".toList cs && decide (7 < cs.length)) ||
     (charsBeginWith "https://".toList cs && decide (8 < cs.length)))

/-- The `re.match(r"^https?://\S+$", new_link)` validation of `change_link`
(commands/engagement.py lines 106-107). Python's `$` (without `MULTILINE`)
also matches just before one newline at the very end of the string, so a
single trailing newline is tolerated: strip it, then the rest must fully
match `https?://\S+`. -/
def isValidLinkFormat (link : String) : Bool :=
  let cs := link.toList
  matchesLinkPattern (if cs.getLast? == some '\n' then cs.dropLast else cs)

/-- `EngagementCommands.change_link` (commands/engagement.py lines 96-176),
in source order: reject a link failing the regex; reject a user with no
active session; fail when the session's channel cannot be resolved or the
original message cannot be fetched (both before any database write); then
update the session row's link in place. -/
def change_link (db : DB) (uid : Nat) (newLink : String)
    (channelFound fetchOk : Bool) : DB × EditResult :=
  if !isValidLinkFormat newLink then (db, .invalidLink)
  else
    match get_active_session db uid with
    | none => (db, .noActiveSubmission)
    | some s =>
      if !channelFound then (db, .channelNotFound)
      else if !fetchOk then (db, .messageNotFound)
      else (updateSessionLink db s.session_id newLink, .success s.link)

/-- Result record of the `/status` command (commands/engagement.py
lines 14-66): the caller's link, the engaged/required counters shown as
`engaged_count/total_required`, and the pending-user list. -/
structure Status where
  link : String
  engagedCount : Nat
  requiredCount : Nat
  pendingUserIds : List Nat
deriving Repr, DecidableEq

/-- `EngagementCommands.status` (commands/engagement.py lines 14-66): `none`
when the caller has no active session; otherwise the other active users are
those of the latest-session map minus the caller (Python sorts them
ascending), `total_required` is their number, `engaged_count` counts the
distinct other active users among the engagers of the caller's session, and
the pending list keeps the others that are not among those engagers. -/
def statusFor (db : DB) (uid : Nat) : Option Status :=
  match get_active_session db uid with
  | none => none
  | some s =>
    let others := (latestUserIds db).filter fun v => v != uid
    let engagers := get_engagers_for_session db s.session_id
    some { link := s.link,
           engagedCount := (others.filter fun v => engagers.contains v).length,
           requiredCount := others.length,
           pendingUserIds := others.filter fun v => !(engagers.contains v) }

/-- One inbound operation of the system: the four entry points that can touch
the database (message post, reaction add, link change, admin reset). -/
inductive Op where
  | message (allowed : Option (List Nat)) (ev : MessageEvent) (t : Nat)
  | reaction (ctx : ReactionCtx) (ev : ReactionEvent) (t : Nat)
  | linkChange (uid : Nat) (newLink : String) (channelFound fetchOk : Bool)
  | reset
deriving Repr, DecidableEq

/-- Interpretation of one operation on the database state. -/
def applyOp (db : DB) : Op → DB
  | .message allowed ev t => on_message db allowed ev t
  | .reaction ctx ev t => on_raw_reaction_add ctx db ev t
  | .linkChange uid newLink cf fo => (change_link db uid newLink cf fo).1
  | .reset => reset_all_sessions db

/-- Interpretation of a sequence of operations, oldest first. -/
def applyOps (db : DB) (ops : List Op) : DB :=
  ops.foldl applyOp db

/-- Uniqueness invariant on engagement edges: at most one edge per
(engager, target session) pair. -/
def EdgeUnique (db : DB) : Prop :=
  ∀ e s, engagementCount db e s ≤ 1

/-- Modelled from the spec, not from the source: spec section 4.2 requires
`editLink` to validate the new link as a well-formed absolute URI with
scheme http or https. Characters admissible in an RFC 3986 URI (unreserved,
gen-delims, sub-delims and the percent sign; `Char.ofNat 39` is the
apostrophe). -/
def specUriChar (c : Char) : Bool :=
  c.isAlphanum ||
    c ∈ ['-', '.', '_', '~', ':', '/', '?', '#', '[', ']', '@', '!', '$',
         '&', Char.ofNat 39, '(', ')', '*', '+', ',', ';', '=', '%']

/-- Modelled from the spec, not from the source: a necessary condition for a
string to be a well-formed absolute URI with scheme http or https — it
starts with the scheme and every character belongs to the RFC 3986 URI
character set. Every well-formed absolute http(s) URI satisfies this
over-approximation, so a string failing it is not well-formed. -/
def specWellFormedAbsoluteHttpUri (s : String) : Bool :=
  ((charsBeginWith "http://".toList s.toList && decide (7 < s.toList.length)) ||
   (charsBeginWith "https://".toList s.toList && decide (8 < s.toList.length))) &&
    s.toList.all specUriChar

/-! ### Concrete states used by the witnesses

`exDB3` is the three-user scenario of the spec's section 8: users A=1, B=2,
C=3 each hold one submission (sessions 1-3, messages 11-13 in channel 100),
and B and C have engaged with A's submission. -/

def exDB3 : DB :=
  { users := [⟨1, "alice", 0⟩, ⟨2, "bob", 0⟩, ⟨3, "carol", 0⟩],
    sessions := [⟨1, 1, "http://x/a", 11, 100, 1, false⟩,
                 ⟨2, 2, "http://x/b", 12, 100, 2, false⟩,
                 ⟨3, 3, "http://x/c", 13, 100, 3, false⟩],
    engagements := [⟨1, 2, 1, 4⟩, ⟨2, 3, 1, 5⟩],
    nextSessionId := 4, nextEngagementId := 3 }

/-- One registered user and no sessions or engagements yet. -/
def exC1 : DB :=
  { users := [⟨7, "eve", 0⟩], sessions := [], engagements := [],
    nextSessionId := 1, nextEngagementId := 1 }

/-- User 5 holds two submission rows (ids 1 and 2, timestamps 10 and 20),
user 6 holds one. -/
def exC2 : DB :=
  { users := [⟨5, "amy", 0⟩, ⟨6, "ben", 0⟩],
    sessions := [⟨1, 5, "http://x/1", 11, 100, 10, false⟩,
                 ⟨2, 5, "http://x/2", 12, 100, 20, false⟩,
                 ⟨3, 6, "http://x/3", 13, 100, 30, false⟩],
    engagements := [], nextSessionId := 4, nextEngagementId := 1 }

/-- The spec's `nonEngagedUsers` scenario: A=1 and B=2 have mutually
engaged, C=3 has engaged with nobody, and nobody has engaged with C. -/
def exDB5 : DB :=
  { users := [⟨1, "alice", 0⟩, ⟨2, "bob", 0⟩, ⟨3, "carol", 0⟩],
    sessions := [⟨1, 1, "http://x/a", 11, 100, 1, false⟩,
                 ⟨2, 2, "http://x/b", 12, 100, 2, false⟩,
                 ⟨3, 3, "http://x/c", 13, 100, 3, false⟩],
    engagements := [⟨1, 1, 2, 4⟩, ⟨2, 2, 1, 5⟩],
    nextSessionId := 4, nextEngagementId := 3 }

/-- Same sessions as `exDB5`, but user 1 has engaged with both other
users' latest submissions. -/
def exDB5full : DB :=
  { users := [⟨1, "alice", 0⟩, ⟨2, "bob", 0⟩, ⟨3, "carol", 0⟩],
    sessions := [⟨1, 1, "http://x/a", 11, 100, 1, false⟩,
                 ⟨2, 2, "http://x/b", 12, 100, 2, false⟩,
                 ⟨3, 3, "http://x/c", 13, 100, 3, false⟩],
    engagements := [⟨1, 1, 2, 4⟩, ⟨2, 1, 3, 5⟩],
    nextSessionId := 4, nextEngagementId := 3 }

/-- A concrete operation sequence: user 1 posts a link, then user 2 reacts
to it twice with the checkmark. -/
def exOps : List Op :=
  [Op.message none ⟨1, false, 100, "alice", ["http://x/1"], 11⟩ 1,
   Op.reaction ⟨99, none, [1, 2], true, true, true⟩ ⟨2, 100, 11, "✅"⟩ 2,
   Op.reaction ⟨99, none, [1, 2], true, true, true⟩ ⟨2, 100, 11, "✅"⟩ 3]

/-! ### Lemmas about the latest-row fold behind `get_active_session` -/

theorem laterOf_cases (acc : Option SessionRow) (r : SessionRow) :
    ∃ c, laterOf acc r = some c ∧ r.submitted_at ≤ c.submitted_at ∧
      (∀ b, acc = some b → b.submitted_at ≤ c.submitted_at) ∧
      (c = r ∨ acc = some c) := by
  cases acc with
  | none =>
    refine ⟨r, rfl, le_refl _, ?_, Or.inl rfl⟩
    intro b hb
    cases hb
  | some b =>
    by_cases h : b.submitted_at < r.submitted_at
    · refine ⟨r, by simp [laterOf, h], le_refl _, ?_, Or.inl rfl⟩
      intro b' hb'; cases hb'; omega
    · refine ⟨b, by simp [laterOf, h], by omega, ?_, Or.inr rfl⟩
      intro b' hb'; cases hb'; exact le_refl _

theorem foldl_laterOf_isSome (l : List SessionRow) (acc : Option SessionRow)
    (h : acc.isSome) : (l.foldl laterOf acc).isSome := by
  induction l generalizing acc with
  | nil => exact h
  | cons r t ih =>
    obtain ⟨c, hc, -⟩ := laterOf_cases acc r
    simpa [hc] using ih (laterOf acc r) (by simp [hc])

theorem foldl_laterOf_spec (l : List SessionRow) (acc : Option SessionRow) (m : SessionRow)
    (hm : l.foldl laterOf acc = some m) :
    (acc = some m ∨ m ∈ l) ∧
      (∀ b, acc = some b → b.submitted_at ≤ m.submitted_at) ∧
      (∀ x ∈ l, x.submitted_at ≤ m.submitted_at) := by
  induction l generalizing acc with
  | nil =>
    simp only [List.foldl_nil] at hm
    refine ⟨Or.inl hm, fun b hb => ?_, by simp⟩
    rw [hm] at hb; cases hb; exact le_refl _
  | cons r t ih =>
    rw [List.foldl_cons] at hm
    obtain ⟨h1, h2, h3⟩ := ih (laterOf acc r) hm
    obtain ⟨c, hc, hrc, hbc, hcase⟩ := laterOf_cases acc r
    have hcm : c.submitted_at ≤ m.submitted_at := by
      cases h1 with
      | inl h => rw [hc] at h; cases h; exact le_refl _
      | inr h => exact h2 c hc
    refine ⟨?_, ?_, ?_⟩
    · cases h1 with
      | inl h =>
        rw [hc] at h; cases h
        cases hcase with
        | inl h => exact Or.inr (h ▸ List.mem_cons_self _ _)
        | inr h => exact Or.inl h
      | inr h => exact Or.inr (List.mem_cons_of_mem _ h)
    · intro b hb
      exact le_trans (hbc b hb) hcm
    · intro x hx
      rcases List.mem_cons.mp hx with hx | hx
      · exact hx ▸ le_trans hrc hcm
      · exact h3 x hx

theorem get_active_session_eq_none_iff (db : DB) (uid : Nat) :
    get_active_session db uid = none ↔ ∀ r ∈ db.sessions, r.user_id ≠ uid := by
  unfold get_active_session
  constructor
  · intro h r hr hru
    have hmem : r ∈ db.sessions.filter (fun r => r.user_id == uid) :=
      List.mem_filter.mpr ⟨hr, by simpa using hru⟩
    cases hf : db.sessions.filter (fun r => r.user_id == uid) with
    | nil => rw [hf] at hmem; simp at hmem
    | cons a t =>
      rw [hf, List.foldl_cons] at h
      have := foldl_laterOf_isSome t (laterOf none a) (by
        obtain ⟨c, hc, -⟩ := laterOf_cases none a
        simp [hc])
      rw [h] at this
      simp at this
  · intro h
    have hf : db.sessions.filter (fun r => r.user_id == uid) = [] := by
      rw [List.filter_eq_nil_iff]
      intro a ha
      simpa using h a ha
    rw [hf]
    rfl

theorem get_active_session_spec (db : DB) (uid : Nat) (m : SessionRow)
    (hm : get_active_session db uid = some m) :
    m ∈ db.sessions ∧ m.user_id = uid ∧
      ∀ x ∈ db.sessions, x.user_id = uid → x.submitted_at ≤ m.submitted_at := by
  unfold get_active_session at hm
  obtain ⟨h1, -, h3⟩ := foldl_laterOf_spec _ none m hm
  rcases h1 with h | h
  · cases h
  · have hmem := List.mem_filter.mp h
    refine ⟨hmem.1, by simpa using hmem.2, ?_⟩
    intro x hx hxu
    exact h3 x (List.mem_filter.mpr ⟨hx, by simpa using hxu⟩)

theorem foldl_laterOf_map (f : SessionRow → SessionRow)
    (hf : ∀ x, (f x).submitted_at = x.submitted_at) (l : List SessionRow)
    (acc : Option SessionRow) :
    (l.map f).foldl laterOf (acc.map f) = (l.foldl laterOf acc).map f := by
  induction l generalizing acc with
  | nil => rfl
  | cons r t ih =>
    have hstep : laterOf (acc.map f) (f r) = (laterOf acc r).map f := by
      cases acc with
      | none => rfl
      | some b => simp [laterOf, hf, apply_ite (Option.map f)]
    rw [List.map_cons, List.foldl_cons, List.foldl_cons, hstep, ih]

theorem get_active_session_map (f : SessionRow → SessionRow)
    (hfu : ∀ r, (f r).user_id = r.user_id)
    (hft : ∀ r, (f r).submitted_at = r.submitted_at) (db : DB) (uid : Nat) :
    get_active_session { db with sessions := db.sessions.map f } uid =
      (get_active_session db uid).map f := by
  unfold get_active_session
  rw [show ((db.sessions.map f).filter fun r => r.user_id == uid)
      = ((db.sessions.filter fun r => r.user_id == uid).map f) by
    rw [List.filter_map]
    congr 1
    apply List.filter_congr
    intro r _
    simp [Function.comp, hfu]]
  simpa using foldl_laterOf_map f hft (db.sessions.filter fun r => r.user_id == uid) none

/-! ### Lemmas about engagement counting and the mutating operations -/

theorem has_engaged_iff (db : DB) (e s : Nat) :
    has_engaged db e s = true ↔
      ∃ ed ∈ db.engagements, ed.engager_id = e ∧ ed.target_session_id = s := by
  simp [has_engaged, engagementCount, bne_iff_ne, ← Nat.pos_iff_ne_zero,
    List.countP_pos_iff]

theorem has_engaged_eq_false_iff (db : DB) (e s : Nat) :
    has_engaged db e s = false ↔ engagementCount db e s = 0 := by
  simp [has_engaged]

theorem users_add_engagement (db : DB) (e s t : Nat) :
    (add_engagement db e s t).1.users = db.users := by
  unfold add_engagement
  split <;> rfl

theorem sessions_add_engagement (db : DB) (e s t : Nat) :
    (add_engagement db e s t).1.sessions = db.sessions := by
  unfold add_engagement
  split <;> rfl

theorem add_engagement_pos (db : DB) (e s t : Nat) (h : has_engaged db e s = false) :
    add_engagement db e s t =
      ({ db with
          engagements := db.engagements ++
            [{ engagement_id := db.nextEngagementId, engager_id := e,
               target_session_id := s, engaged_at := t }],
          nextEngagementId := db.nextEngagementId + 1 },
       true) := by
  simp [add_engagement, h]

theorem add_engagement_neg (db : DB) (e s t : Nat) (h : has_engaged db e s = true) :
    add_engagement db e s t = (db, false) := by
  simp [add_engagement, h]

theorem engagementCount_add_engagement_self (db : DB) (e s t : Nat)
    (h : has_engaged db e s = false) :
    engagementCount (add_engagement db e s t).1 e s = 1 := by
  rw [add_engagement_pos db e s t h]
  unfold engagementCount at *
  rw [List.countP_append]
  have h0 := (has_engaged_eq_false_iff db e s).mp h
  unfold engagementCount at h0
  simp [h0, List.countP_cons]

theorem edgeUnique_add_engagement (db : DB) (e s t : Nat) (h : EdgeUnique db) :
    EdgeUnique (add_engagement db e s t).1 := by
  intro a b
  cases he : has_engaged db e s with
  | true => rw [add_engagement_neg db e s t he]; exact h a b
  | false =>
    rw [add_engagement_pos db e s t he]
    unfold engagementCount
    rw [List.countP_append]
    by_cases hab : e = a ∧ s = b
    · obtain ⟨ha, hb⟩ := hab
      subst ha; subst hb
      have h0 := (has_engaged_eq_false_iff db e s).mp he
      unfold engagementCount at h0
      simp [h0, List.countP_cons]
    · have : (List.countP
          (fun ed : EngagementRow => ed.engager_id == a && ed.target_session_id == b))
          [{ engagement_id := db.nextEngagementId, engager_id := e,
             target_session_id := s, engaged_at := t }] = 0 := by
        simp only [List.countP_cons, List.countP_nil, Bool.and_eq_true, beq_iff_eq]
        simp [hab]
      rw [this]
      simpa using h a b

theorem engagementCount_congr (db db' : DB) (e s : Nat)
    (h : db'.engagements = db.engagements) :
    engagementCount db' e s = engagementCount db e s := by
  unfold engagementCount
  rw [h]

theorem edgeUnique_of_eq_engagements (db db' : DB)
    (h : db'.engagements = db.engagements) (hu : EdgeUnique db) : EdgeUnique db' := by
  intro a b
  rw [engagementCount_congr db db' a b h]
  exact hu a b

theorem engagements_add_point (db : DB) (uid : Nat) :
    (add_point db uid).engagements = db.engagements := rfl

theorem sessions_add_point (db : DB) (uid : Nat) :
    (add_point db uid).sessions = db.sessions := rfl

theorem engagements_add_user (db : DB) (uid : Nat) (name : String) :
    (add_user db uid name).engagements = db.engagements := by
  unfold add_user
  split <;> rfl

theorem users_mem_add_user (db : DB) (uid auid : Nat) (name : String)
    (h : ∃ u ∈ db.users, u.user_id = auid) :
    ∃ u ∈ (add_user db uid name).users, u.user_id = auid := by
  obtain ⟨u, hu, hid⟩ := h
  unfold add_user
  split
  · refine ⟨if u.user_id == uid then { u with username := name } else u, ?_, ?_⟩
    · exact List.mem_map.mpr ⟨u, hu, rfl⟩
    · split <;> simpa
  · exact ⟨u, List.mem_append_left _ hu, hid⟩

theorem engagements_add_session (db : DB) (uid : Nat) (link : String) (mid cid t : Nat) :
    (add_session db uid link mid cid t).1.engagements = db.engagements := rfl

theorem engagements_updateSessionLink (db : DB) (sid : Nat) (nl : String) :
    (updateSessionLink db sid nl).engagements = db.engagements := rfl

theorem recordEngagement_of_engaged (db : DB) (e s t : Nat)
    (h : has_engaged db e s = true) : recordEngagement db e s t = (db, false) := by
  unfold recordEngagement
  rw [add_engagement_neg db e s t h]
  simp

theorem recordEngagement_of_not_engaged (db : DB) (e s t : Nat)
    (h : has_engaged db e s = false) :
    recordEngagement db e s t = (add_point (add_engagement db e s t).1 e, true) := by
  unfold recordEngagement
  rw [add_engagement_pos db e s t h]
  simp

theorem engagements_recordEngagement (db : DB) (e s t : Nat) :
    (recordEngagement db e s t).1.engagements = (add_engagement db e s t).1.engagements := by
  unfold recordEngagement
  cases h : (add_engagement db e s t).2 <;> simp [h, engagements_add_point]

theorem edgeUnique_recordEngagement (db : DB) (e s t : Nat) (h : EdgeUnique db) :
    EdgeUnique (recordEngagement db e s t).1 := by
  apply edgeUnique_of_eq_engagements (add_engagement db e s t).1 _
    (engagements_recordEngagement db e s t)
  exact edgeUnique_add_engagement db e s t h

theorem engagements_on_message (db : DB) (allowed : Option (List Nat))
    (ev : MessageEvent) (t : Nat) :
    (on_message db allowed ev t).engagements = db.engagements := by
  unfold on_message
  split
  · rfl
  split
  · rfl
  split
  · rfl
  split
  · rfl
  rw [engagements_add_session, engagements_add_user]

theorem engagements_change_link (db : DB) (uid : Nat) (nl : String) (cf fo : Bool) :
    (change_link db uid nl cf fo).1.engagements = db.engagements := by
  unfold change_link
  split
  · rfl
  split
  · rfl
  split
  · rfl
  split
  · rfl
  exact engagements_updateSessionLink db _ nl

theorem on_raw_reaction_add_cases (ctx : ReactionCtx) (db : DB) (ev : ReactionEvent)
    (t : Nat) :
    on_raw_reaction_add ctx db ev t = db ∨
      ∃ s t', on_raw_reaction_add ctx db ev t = (recordEngagement db ev.user_id s t').1 := by
  unfold on_raw_reaction_add
  split
  · exact Or.inl rfl
  split
  · exact Or.inl rfl
  split
  · exact Or.inl rfl
  split
  · exact Or.inl rfl
  split
  · exact Or.inl rfl
  split
  · exact Or.inl rfl
  rename_i s _
  split
  · exact Or.inl rfl
  split
  · exact Or.inl rfl
  split
  · exact Or.inl rfl
  refine Or.inr ⟨s.session_id, t, ?_⟩
  unfold recordEngagement
  cases hp : (add_engagement db ev.user_id s.session_id t).2 <;> simp [hp]

theorem edgeUnique_applyOp (db : DB) (op : Op) (h : EdgeUnique db) :
    EdgeUnique (applyOp db op) := by
  cases op with
  | message allowed ev t =>
    exact edgeUnique_of_eq_engagements db _ (engagements_on_message db allowed ev t) h
  | reaction ctx ev t =>
    rcases on_raw_reaction_add_cases ctx db ev t with heq | ⟨s, t', heq⟩
    · exact edgeUnique_of_eq_engagements db _ (by rw [applyOp, heq]) h
    · rw [applyOp, heq]
      exact edgeUnique_recordEngagement db ev.user_id s t' h
  | linkChange uid nl cf fo =>
    exact edgeUnique_of_eq_engagements db _ (engagements_change_link db uid nl cf fo) h
  | reset =>
    intro a b
    simp [applyOp, reset_all_sessions, engagementCount]

theorem edgeUnique_applyOps (ops : List Op) (db : DB) (h : EdgeUnique db) :
    EdgeUnique (applyOps db ops) := by
  induction ops generalizing db with
  | nil => exact h
  | cons op rest ih =>
    rw [applyOps, List.foldl_cons]
    exact ih (applyOp db op) (edgeUnique_applyOp db op h)

theorem edgeUnique_initDB : EdgeUnique initDB := by
  intro a b
  simp [initDB, engagementCount]

/-! ### Lemmas about points -/

theorem totalPoints_congr (db db' : DB) (uid : Nat) (h : db'.users = db.users) :
    totalPoints db' uid = totalPoints db uid := by
  unfold totalPoints
  rw [h]

theorem totalPoints_add_point_of_mem (db : DB) (uid : Nat)
    (h : ∃ u ∈ db.users, u.user_id = uid) :
    totalPoints (add_point db uid) uid = totalPoints db uid + 1 := by
  unfold totalPoints add_point
  rw [List.find?_map]
  have hp : ((fun u : UserRow => u.user_id == uid) ∘ fun u : UserRow =>
      if u.user_id == uid then { u with total_points := u.total_points + 1 } else u)
      = fun u : UserRow => u.user_id == uid := by
    funext u
    simp only [Function.comp]
    split <;> rfl
  rw [hp]
  have hsome : (db.users.find? fun u => u.user_id == uid).isSome := by
    rw [List.find?_isSome]
    obtain ⟨u, hu, hid⟩ := h
    exact ⟨u, hu, by simpa using hid⟩
  obtain ⟨v, hv⟩ := Option.isSome_iff_exists.mp hsome
  have hvid := List.find?_some hv
  simp only [beq_iff_eq] at hvid
  rw [hv]
  simp [hvid]

/-! ### Membership lemmas for the derived views -/

theorem mem_latestUserIds (db : DB) (uid : Nat) :
    uid ∈ latestUserIds db ↔ ∃ r ∈ db.sessions, r.user_id = uid := by
  unfold latestUserIds
  rw [List.mem_insertionSort, List.mem_dedup, List.mem_map]

theorem mem_engagers_iff (db : DB) (sid v : Nat) :
    v ∈ get_engagers_for_session db sid ↔
      ∃ ed ∈ db.engagements, ed.engager_id = v ∧ ed.target_session_id = sid := by
  unfold get_engagers_for_session
  rw [List.mem_map]
  constructor
  · rintro ⟨ed, hed, hid⟩
    rw [List.mem_insertionSort] at hed
    have := List.mem_filter.mp hed
    exact ⟨ed, this.1, hid, by simpa using this.2⟩
  · rintro ⟨ed, hed, hid, htarget⟩
    refine ⟨ed, ?_, hid⟩
    rw [List.mem_insertionSort]
    exact List.mem_filter.mpr ⟨hed, by simpa using htarget⟩

theorem contains_engagers_eq_has_engaged (db : DB) (sid v : Nat) :
    (get_engagers_for_session db sid).contains v = has_engaged db v sid := by
  rw [Bool.eq_iff_iff]
  rw [List.contains_eq_any_beq]
  rw [List.any_eq_true]
  rw [has_engaged_iff]
  constructor
  · rintro ⟨w, hw, hvw⟩
    simp only [beq_iff_eq] at hvw
    subst hvw
    exact (mem_engagers_iff db sid _).mp hw
  · intro hex
    exact ⟨v, (mem_engagers_iff db sid v).mpr hex, by simp⟩

theorem length_filter_add_not (l : List Nat) (q : Nat → Bool) :
    (l.filter q).length + (l.filter fun a => !q a).length = l.length := by
  induction l with
  | nil => rfl
  | cons a t ih =>
    by_cases hq : q a = true <;> simp [List.filter_cons, hq] <;> omega

/-! ### Claims -/

/-- C1: at most one engagement edge exists per (engager, target submission)
pair after any sequence of system operations, and for a pair that is not yet
engaged and a registered engager, the first `recordEngagement` call reports
a new edge while the second reports already-engaged, changes nothing, and
the engager's points have risen by exactly 1 across the two calls. -/
theorem engagement_pair_at_most_once :
    (∀ ops : List Op, EdgeUnique (applyOps initDB ops)) ∧
    (∀ (db : DB) (e s t₁ t₂ : Nat), has_engaged db e s = false →
      (∃ u ∈ db.users, u.user_id = e) →
      (recordEngagement db e s t₁).2 = true ∧
      recordEngagement (recordEngagement db e s t₁).1 e s t₂ =
        ((recordEngagement db e s t₁).1, false) ∧
      engagementCount (recordEngagement db e s t₁).1 e s = 1 ∧
      totalPoints (recordEngagement db e s t₁).1 e = totalPoints db e + 1) := by
  constructor
  · intro ops
    exact edgeUnique_applyOps ops initDB edgeUnique_initDB
  · intro db e s t₁ t₂ h hu
    have h1 := recordEngagement_of_not_engaged db e s t₁ h
    have hcount : engagementCount (recordEngagement db e s t₁).1 e s = 1 := by
      rw [engagementCount_congr (add_engagement db e s t₁).1 (recordEngagement db e s t₁).1
        e s (engagements_recordEngagement db e s t₁)]
      exact engagementCount_add_engagement_self db e s t₁ h
    have hengaged2 : has_engaged (recordEngagement db e s t₁).1 e s = true := by
      unfold has_engaged
      rw [hcount]
      rfl
    refine ⟨by rw [h1], recordEngagement_of_engaged _ e s t₂ hengaged2, hcount, ?_⟩
    rw [h1]
    have husers : (add_engagement db e s t₁).1.users = db.users := users_add_engagement db e s t₁
    have hx : ∃ u ∈ (add_engagement db e s t₁).1.users, u.user_id = e := by
      rw [husers]; exact hu
    calc totalPoints (add_point (add_engagement db e s t₁).1 e, true).1 e
        = totalPoints (add_engagement db e s t₁).1 e + 1 :=
          totalPoints_add_point_of_mem _ e hx
      _ = totalPoints db e + 1 := by rw [totalPoints_congr db _ e husers]

theorem engagement_pair_at_most_once_witness :
    (has_engaged exC1 7 3 = false ∧ (∃ u ∈ exC1.users, u.user_id = 7)) ∧
    ((recordEngagement exC1 7 3 5).2 = true ∧
      recordEngagement (recordEngagement exC1 7 3 5).1 7 3 6 =
        ((recordEngagement exC1 7 3 5).1, false) ∧
      engagementCount (recordEngagement exC1 7 3 5).1 7 3 = 1 ∧
      totalPoints (recordEngagement exC1 7 3 5).1 7 = totalPoints exC1 7 + 1) ∧
    engagementCount (applyOps initDB exOps) 2 1 ≤ 1 :=
  ⟨⟨by decide, by decide⟩,
   engagement_pair_at_most_once.2 exC1 7 3 5 6 (by decide) (by decide),
   engagement_pair_at_most_once.1 exOps 2 1⟩

/-- C2: `get_active_session` returns `none` exactly when the user has no
sessions row; and whenever submission timestamps are ordered consistently
with session ids among the user's rows (SQLite stamps `submitted_at` with
`CURRENT_TIMESTAMP` as rows are inserted with increasing `session_id`), the
returned row is the one with the maximum `session_id` for that user. -/
theorem active_submission_max_id (db : DB) (uid : Nat) :
    (get_active_session db uid = none ↔ ∀ r ∈ db.sessions, r.user_id ≠ uid) ∧
    ((∀ r ∈ db.sessions, ∀ x ∈ db.sessions, r.user_id = uid → x.user_id = uid →
        r.submitted_at ≤ x.submitted_at → r.session_id ≤ x.session_id) →
      ∀ m, get_active_session db uid = some m →
        m ∈ db.sessions ∧ m.user_id = uid ∧
          ∀ x ∈ db.sessions, x.user_id = uid → x.session_id ≤ m.session_id) := by
  refine ⟨get_active_session_eq_none_iff db uid, ?_⟩
  intro hmono m hm
  obtain ⟨hmem, hmu, hmax⟩ := get_active_session_spec db uid m hm
  refine ⟨hmem, hmu, ?_⟩
  intro x hx hxu
  exact hmono x hx m hmem hxu hmu (hmax x hx hxu)

theorem active_submission_max_id_witness :
    (∀ r ∈ exC2.sessions, ∀ x ∈ exC2.sessions, r.user_id = 5 → x.user_id = 5 →
        r.submitted_at ≤ x.submitted_at → r.session_id ≤ x.session_id) ∧
    get_active_session exC2 5 = some ⟨2, 5, "http://x/2", 12, 100, 20, false⟩ ∧
    (⟨2, 5, "http://x/2", 12, 100, 20, false⟩ : SessionRow) ∈ exC2.sessions ∧
    get_active_session exC2 7 = none :=
  ⟨by decide, by decide,
   ((active_submission_max_id exC2 5).2 (by decide)
      ⟨2, 5, "http://x/2", 12, 100, 20, false⟩ (by decide)).1,
   (active_submission_max_id exC2 7).1.mpr (by decide)⟩

/-- C4: `reset_all_sessions` empties the sessions and engagements tables, so
the latest-submission map becomes empty, while the users table — and with it
every user's `total_points` and the leaderboard — is unchanged. -/
theorem reset_preserves_points (db : DB) :
    get_latest_sessions_map (reset_all_sessions db) = [] ∧
    (reset_all_sessions db).sessions = [] ∧
    (reset_all_sessions db).engagements = [] ∧
    (reset_all_sessions db).users = db.users ∧
    (∀ uid, totalPoints (reset_all_sessions db) uid = totalPoints db uid) ∧
    ∀ n, get_leaderboard (reset_all_sessions db) n = get_leaderboard db n :=
  ⟨rfl, rfl, rfl, rfl, fun _ => rfl, fun _ => rfl⟩

/-- C10: `add_point` for a user id with no users row is a silent no-op: the
state — in particular every existing user's points — is untouched and no
user row is created. -/
theorem add_point_unregistered_noop (db : DB) (uid : Nat)
    (h : ∀ u ∈ db.users, u.user_id ≠ uid) : add_point db uid = db := by
  unfold add_point
  have hmap : db.users.map (fun u =>
      if u.user_id == uid then { u with total_points := u.total_points + 1 } else u)
      = db.users := by
    conv_rhs => rw [← List.map_id db.users]
    apply List.map_congr_left
    intro u hu
    simp [h u hu]
  rw [hmap]

theorem add_point_unregistered_noop_witness :
    (∀ u ∈ exC1.users, u.user_id ≠ 99) ∧ add_point exC1 99 = exC1 :=
  ⟨by decide, add_point_unregistered_noop exC1 99 (by decide)⟩

/-- C3: for a caller with an active session, `statusFor` reports
`requiredCount` = the number of other users in the latest-submission map,
`engagedCount` = the number of distinct other active users holding an
engagement edge on the caller's session, and `pendingUserIds` = exactly the
other active users without such an edge; engaged and pending partition the
required set. -/
theorem status_counts_spec (db : DB) (uid : Nat) (s : SessionRow) (st : Status)
    (hs : get_active_session db uid = some s) (hst : statusFor db uid = some st) :
    st.link = s.link ∧
    st.requiredCount = ((latestUserIds db).filter fun v => v != uid).length ∧
    st.pendingUserIds = ((latestUserIds db).filter
      fun v => v != uid && !(has_engaged db v s.session_id)) ∧
    st.engagedCount = ((latestUserIds db).filter
      fun v => v != uid && has_engaged db v s.session_id).length ∧
    st.engagedCount + st.pendingUserIds.length = st.requiredCount := by
  unfold statusFor at hst
  rw [hs] at hst
  simp only [Option.some.injEq] at hst
  subst hst
  refine ⟨rfl, rfl, ?_, ?_, ?_⟩
  · show ((latestUserIds db).filter fun v => v != uid).filter
        (fun v => !(get_engagers_for_session db s.session_id).contains v)
      = (latestUserIds db).filter fun v => v != uid && !(has_engaged db v s.session_id)
    rw [List.filter_filter]
    apply List.filter_congr
    intro v _
    rw [contains_engagers_eq_has_engaged, Bool.and_comm]
  · show (((latestUserIds db).filter fun v => v != uid).filter
        fun v => (get_engagers_for_session db s.session_id).contains v).length
      = ((latestUserIds db).filter
        fun v => v != uid && has_engaged db v s.session_id).length
    rw [List.filter_filter]
    congr 1
    apply List.filter_congr
    intro v _
    rw [contains_engagers_eq_has_engaged, Bool.and_comm]
  · show (((latestUserIds db).filter fun v => v != uid).filter
        fun v => (get_engagers_for_session db s.session_id).contains v).length
      + (((latestUserIds db).filter fun v => v != uid).filter
        fun v => !(get_engagers_for_session db s.session_id).contains v).length
      = ((latestUserIds db).filter fun v => v != uid).length
    exact length_filter_add_not ((latestUserIds db).filter fun v => v != uid)
      fun v => (get_engagers_for_session db s.session_id).contains v

theorem status_counts_spec_witness :
    get_active_session exDB3 2 = some ⟨2, 2, "http://x/b", 12, 100, 2, false⟩ ∧
    statusFor exDB3 2 = some ⟨"http://x/b", 0, 2, [1, 3]⟩ ∧
    statusFor exDB3 1 = some ⟨"http://x/a", 2, 2, []⟩ ∧
    (0 : Nat) + ([1, 3] : List Nat).length = 2 :=
  ⟨by decide, by decide, by decide,
   (status_counts_spec exDB3 2 ⟨2, 2, "http://x/b", 12, 100, 2, false⟩
      ⟨"http://x/b", 0, 2, [1, 3]⟩ (by decide) (by decide)).2.2.2.2⟩

/-- C5: `get_non_engaged_users` lists exactly the users that have a sessions
row and have failed to engage with at least one other active user's latest
session; a user with a latest session who has engaged with every other
active user's latest session is not listed. -/
theorem non_engaged_users_characterization (db : DB) (uid : Nat) :
    (uid ∈ (get_non_engaged_users db).map Prod.fst ↔
      ((∃ r ∈ db.sessions, r.user_id = uid) ∧
        ∃ v, (∃ r ∈ db.sessions, r.user_id = v) ∧ v ≠ uid ∧
          has_engaged db uid (latestSessionIdOf db v) = false)) ∧
    ((uid ∈ latestUserIds db ∧ ∀ v ∈ latestUserIds db, v ≠ uid →
        has_engaged db uid (latestSessionIdOf db v) = true) →
      uid ∉ (get_non_engaged_users db).map Prod.fst) := by
  have hmain : uid ∈ (get_non_engaged_users db).map Prod.fst ↔
      uid ∈ latestUserIds db ∧
        ∃ v ∈ latestUserIds db, v ≠ uid ∧
          has_engaged db uid (latestSessionIdOf db v) = false := by
    unfold get_non_engaged_users
    rw [List.map_map]
    rw [show ((Prod.fst ∘ fun u : Nat => (u, usernameOf db u))) = id from rfl]
    rw [List.map_id, List.mem_filter]
    unfold missingSomeEngagement
    rw [List.any_eq_true]
    constructor
    · rintro ⟨hid, v, hv, hcond⟩
      simp only [Bool.and_eq_true, bne_iff_ne, Bool.not_eq_true'] at hcond
      exact ⟨hid, v, hv, hcond.1, hcond.2⟩
    · rintro ⟨hid, v, hv, hne, hfalse⟩
      refine ⟨hid, v, hv, ?_⟩
      simp [hne, hfalse]
  constructor
  · rw [hmain]
    constructor
    · rintro ⟨hid, v, hv, hne, hfalse⟩
      exact ⟨(mem_latestUserIds db uid).mp hid,
        v, (mem_latestUserIds db v).mp hv, hne, hfalse⟩
    · rintro ⟨hid, v, hv, hne, hfalse⟩
      exact ⟨(mem_latestUserIds db uid).mpr hid,
        v, (mem_latestUserIds db v).mpr hv, hne, hfalse⟩
  · rintro ⟨hid, hall⟩ hmem
    obtain ⟨-, v, hv, hne, hfalse⟩ := hmain.mp hmem
    have := hall v hv hne
    simp [this] at hfalse

theorem non_engaged_users_characterization_witness :
    (get_non_engaged_users exDB5).map Prod.fst = [1, 2, 3] ∧
    (1 ∈ latestUserIds exDB5full ∧ ∀ v ∈ latestUserIds exDB5full, v ≠ 1 →
      has_engaged exDB5full 1 (latestSessionIdOf exDB5full v) = true) ∧
    1 ∉ (get_non_engaged_users exDB5full).map Prod.fst :=
  ⟨by decide, ⟨by decide, by decide⟩,
   (non_engaged_users_characterization exDB5full 1).2 ⟨by decide, by decide⟩⟩

/-- C6: the reaction pipeline never creates a self-engagement edge: when the
resolved owner of the reacted message is the reactor, the event is rejected
with no database change, and when no owner session resolves (e.g. the
reaction arrived before the submission row exists), the event is likewise
dropped with no database change. -/
theorem self_engagement_rejected (ctx : ReactionCtx) (db : DB) (ev : ReactionEvent)
    (t : Nat) :
    (findOwnerSession db ctx.members ev.message_id = none →
      on_raw_reaction_add ctx db ev t = db) ∧
    (∀ s, findOwnerSession db ctx.members ev.message_id = some s →
      s.user_id = ev.user_id → on_raw_reaction_add ctx db ev t = db) := by
  constructor
  · intro h
    unfold on_raw_reaction_add
    split
    · rfl
    split
    · rfl
    split
    · rfl
    split
    · rfl
    split
    · rfl
    cases hE : ctx.hasEmbeds
    · simp [hE]
    · simp [hE, h]
  · intro s hsome hself
    unfold on_raw_reaction_add
    split
    · rfl
    split
    · rfl
    split
    · rfl
    split
    · rfl
    split
    · rfl
    cases hE : ctx.hasEmbeds
    · simp [hE]
    · simp [hE, hsome, hself]

theorem self_engagement_rejected_witness :
    findOwnerSession exDB3 [1, 2, 3] 11 = some ⟨1, 1, "http://x/a", 11, 100, 1, false⟩ ∧
    on_raw_reaction_add ⟨99, none, [1, 2, 3], true, true, true⟩ exDB3
      ⟨1, 100, 11, "✅"⟩ 9 = exDB3 :=
  ⟨by decide,
   (self_engagement_rejected ⟨99, none, [1, 2, 3], true, true, true⟩ exDB3
      ⟨1, 100, 11, "✅"⟩ 9).2 ⟨1, 1, "http://x/a", 11, 100, 1, false⟩ (by decide) rfl⟩

/-- C7: a reaction whose emoji is not the checkmark marker, or that happens
in a channel outside the configured allowed set, is dropped by the pipeline
before any mutation: the database is unchanged. -/
theorem filtered_reaction_ignored (ctx : ReactionCtx) (db : DB) (ev : ReactionEvent)
    (t : Nat) :
    (ev.emoji ≠ checkmark_emoji → on_raw_reaction_add ctx db ev t = db) ∧
    (∀ l, ctx.allowed = some l → ev.channel_id ∉ l →
      on_raw_reaction_add ctx db ev t = db) := by
  constructor
  · intro h
    unfold on_raw_reaction_add
    split
    · rfl
    split
    · rfl
    split
    · rfl
    rename_i hcond
    exact absurd (by simpa [bne_iff_ne] using hcond) h
  · intro l hl hc
    unfold on_raw_reaction_add
    split
    · rfl
    split
    · rfl
    rename_i hcond
    exfalso
    apply hcond
    rw [hl]
    simp [hc]

theorem filtered_reaction_ignored_witness :
    on_raw_reaction_add ⟨99, none, [1, 2, 3], true, true, true⟩ exDB3
      ⟨2, 100, 11, "👍"⟩ 9 = exDB3 ∧
    on_raw_reaction_add ⟨99, some [100], [1, 2, 3], true, true, true⟩ exDB3
      ⟨2, 200, 11, "✅"⟩ 9 = exDB3 :=
  ⟨(filtered_reaction_ignored ⟨99, none, [1, 2, 3], true, true, true⟩ exDB3
      ⟨2, 100, 11, "👍"⟩ 9).1 (by decide),
   (filtered_reaction_ignored ⟨99, some [100], [1, 2, 3], true, true, true⟩ exDB3
      ⟨2, 200, 11, "✅"⟩ 9).2 [100] rfl (by decide)⟩

/-- C8: a successful `change_link` mutates only the link of the caller's
active session row in place: it returns the previous link, keeps the users
and engagements tables and the session row count unchanged, keeps every
other session row as it was, and afterwards the active session is the same
row (same `session_id`) carrying the new link. -/
theorem change_link_in_place (db : DB) (uid : Nat) (newLink : String) (s : SessionRow)
    (hv : isValidLinkFormat newLink = true)
    (hs : get_active_session db uid = some s) :
    change_link db uid newLink true true =
      (updateSessionLink db s.session_id newLink, .success s.link) ∧
    (updateSessionLink db s.session_id newLink).users = db.users ∧
    (updateSessionLink db s.session_id newLink).engagements = db.engagements ∧
    (updateSessionLink db s.session_id newLink).sessions.length = db.sessions.length ∧
    get_active_session (updateSessionLink db s.session_id newLink) uid =
      some { s with link := newLink } ∧
    ∀ r ∈ db.sessions, r.session_id ≠ s.session_id →
      r ∈ (updateSessionLink db s.session_id newLink).sessions := by
  refine ⟨by simp [change_link, hv, hs], rfl, rfl, by simp [updateSessionLink], ?_, ?_⟩
  · have hmap := get_active_session_map
      (fun r => if r.session_id == s.session_id then { r with link := newLink } else r)
      (fun r => by by_cases h : r.session_id == s.session_id <;> simp [h])
      (fun r => by by_cases h : r.session_id == s.session_id <;> simp [h]) db uid
    rw [show updateSessionLink db s.session_id newLink
        = { db with sessions := db.sessions.map fun r =>
            if r.session_id == s.session_id then { r with link := newLink } else r }
      from rfl]
    rw [hmap, hs]
    simp
  · intro r hr hne
    unfold updateSessionLink
    refine List.mem_map.mpr ⟨r, hr, ?_⟩
    simp [hne]

theorem change_link_in_place_witness :
    isValidLinkFormat "http://x/2" = true ∧
    get_active_session exDB3 1 = some ⟨1, 1, "http://x/a", 11, 100, 1, false⟩ ∧
    change_link exDB3 1 "http://x/2" true true =
      (updateSessionLink exDB3 1 "http://x/2", .success "http://x/a") ∧
    get_active_session (updateSessionLink exDB3 1 "http://x/2") 1 =
      some ⟨1, 1, "http://x/2", 11, 100, 1, false⟩ :=
  ⟨by decide, by decide,
   (change_link_in_place exDB3 1 "http://x/2" ⟨1, 1, "http://x/a", 11, 100, 1, false⟩
      (by decide) (by decide)).1,
   (change_link_in_place exDB3 1 "http://x/2" ⟨1, 1, "http://x/a", 11, 100, 1, false⟩
      (by decide) (by decide)).2.2.2.2.1⟩

/-- C9 (counterexample): the string starting `http://` but containing the
character `<` — excluded from the RFC 3986 URI character set, hence not part
of any well-formed absolute URI — is nonetheless accepted by `change_link`,
which proceeds to a successful in-place update instead of failing with the
invalid-link error the claim requires. -/
theorem change_link_uri_counterexample :
    specWellFormedAbsoluteHttpUri "http://a<b" = false ∧
    isValidLinkFormat "http://a<b" = true ∧
    (change_link exDB3 1 "http://a<b" true true).2 = EditResult.success "http://x/a" ∧
    (change_link exDB3 1 "http://a<b" true true).1 ≠ exDB3 := by
  refine ⟨by decide, by decide, by decide, by decide⟩

/-- C9 (amended): `change_link` fails with the invalid-link error exactly
when the new link does not match Python's `^https?://\S+$` — after allowing
at most one trailing newline, the string must be `http://` or `https://`
followed by at least one character with no (Unicode) whitespace anywhere —
and, for a link matching the pattern, fails with the no-active-submission
error when the caller has no session row; both rejections leave the
database unchanged. -/
theorem change_link_rejections (db : DB) (uid : Nat) (newLink : String)
    (cf fo : Bool) :
    (isValidLinkFormat newLink = false →
      change_link db uid newLink cf fo = (db, .invalidLink)) ∧
    (isValidLinkFormat newLink = true → get_active_session db uid = none →
      change_link db uid newLink cf fo = (db, .noActiveSubmission)) := by
  constructor
  · intro h
    simp [change_link, h]
  · intro hv hn
    simp [change_link, hv, hn]

theorem change_link_rejections_witness :
    isValidLinkFormat "http://a\tb" = false ∧
    change_link exDB3 1 "http://a\tb" true true = (exDB3, .invalidLink) ∧
    isValidLinkFormat "http://x\n" = true ∧
    get_active_session exDB3 42 = none ∧
    change_link exDB3 42 "http://x\n" true true = (exDB3, .noActiveSubmission) :=
  ⟨by decide,
   (change_link_rejections exDB3 1 "http://a\tb" true true).1 (by decide),
   by decide, by decide,
   (change_link_rejections exDB3 42 "http://x\n" true true).2 (by decide) (by decide)⟩

end CreatorBot
